import Mathlib

/-!
Verification of the Multi-Serial-Scanner core (`app/main.py`): a shallow
embedding of the port enumerator, the per-device serial reader lifecycle,
the publish gateway calls, and the reconciliation loop, together with
theorems settling the specification claims.

Source of truth: `src/Multi_Serial_Scanner/app/main.py`.
-/

namespace MultiSerial

/-! ## Glob matching (`fnmatch.fnmatch`, POSIX case-sensitive semantics)

`matches` in `main.py` delegates to `fnmatch.fnmatch`; on POSIX hosts
`os.path.normcase` is the identity, so this is case-sensitive full-path
matching with `*`, `?` and `[...]` bracket classes.  We mirror CPython's
`fnmatch.translate` by compiling the pattern to a token list and running a
backtracking matcher over it. -/

/-- Scan for the closing `]` of a bracket class, returning the chunk before
it and the remainder of the pattern after it. -/
def findClose : List Char → Option (List Char × List Char)
  | [] => none
  | c :: rest =>
    if c = ']' then some ([], rest)
    else
      match findClose rest with
      | none => none
      | some (chunk, r) => some (c :: chunk, r)

/-- Interpret the inside of a bracket class as a list of character ranges
(`a-z` is a range, a lone character is a degenerate range, a leading or
trailing `-` is literal, an empty/reversed range is dropped), following
`fnmatch.translate`. -/
def chunkRanges : List Char → List (Char × Char)
  | [] => []
  | a :: '-' :: b :: rest =>
    if a ≤ b then (a, b) :: chunkRanges rest else chunkRanges rest
  | a :: rest => (a, a) :: chunkRanges rest

/-- A leading `!` in a bracket class negates it. -/
def stripNeg (ps : List Char) : Bool × List Char :=
  match ps with
  | [] => (false, [])
  | c :: r => if c = '!' then (true, r) else (false, c :: r)

/-- Parse a bracket class body (the pattern after `[`): optional negation,
an optional literal leading `]`, then everything up to the closing `]`.
`none` means there is no closing `]`, in which case `[` is literal. -/
def parseBracket (ps : List Char) : Option (Bool × List (Char × Char) × List Char) :=
  let neg := (stripNeg ps).1
  let ps1 := (stripNeg ps).2
  match ps1 with
  | ']' :: r =>
    match findClose r with
    | none => none
    | some (chunk, rest) => some (neg, chunkRanges (']' :: chunk), rest)
  | _ =>
    match findClose ps1 with
    | none => none
    | some (chunk, rest) => some (neg, chunkRanges chunk, rest)

/-- A compiled glob-pattern token, mirroring the regex fragments produced by
`fnmatch.translate`: a literal character, `?` (any single character), `*`
(any sequence, newline included), or a bracket class. -/
inductive GlobTok where
  | lit (c : Char)
  | anyOne
  | anySeq
  | cls (neg : Bool) (ranges : List (Char × Char))
deriving DecidableEq

/-- Compile a glob pattern to tokens, exactly as `fnmatch.translate`
classifies pattern positions: `*`, `?`, `[` (a bracket class when a closing
`]` exists, otherwise a literal `[`), and literal characters.  The `fuel`
argument makes the recursion structural (so the kernel can evaluate it);
every step consumes at least one pattern character (`parseBracket_length`),
so `fuel = ps.length` always suffices (`patTokensF_eq`) and the `fuel = 0`
branch is reached only on the empty pattern. -/
def patTokensF : Nat → List Char → List GlobTok
  | 0, _ => []
  | fuel + 1, ps =>
    match ps with
    | [] => []
    | c :: rest =>
      if c = '*' then .anySeq :: patTokensF fuel rest
      else if c = '?' then .anyOne :: patTokensF fuel rest
      else if c = '[' then
        match parseBracket rest with
        | none => .lit '[' :: patTokensF fuel rest
        | some (neg, rs, rest2) => .cls neg rs :: patTokensF fuel rest2
      else .lit c :: patTokensF fuel rest

/-- Token compilation at its sufficient fuel. -/
def patTokens (ps : List Char) : List GlobTok :=
  patTokensF ps.length ps

/-- Character membership in a bracket class's ranges. -/
def inRanges (rs : List (Char × Char)) (c : Char) : Bool :=
  rs.any fun p => decide (p.1 ≤ c ∧ c ≤ p.2)

/-- Match a compiled glob pattern against a string, anchored at both ends
(as `fnmatch` matches the full path), with backtracking for `*`.  The
`fuel` argument makes the recursion structural; every recursive call
strictly decreases `ts.length + s.length`, so
`fuel = ts.length + s.length + 1` always suffices (`tokMatchF_eq`) and the
`fuel = 0` branch is unreachable. -/
def tokMatchF : Nat → List GlobTok → List Char → Bool
  | 0, _, _ => false
  | fuel + 1, ts, s =>
    match ts, s with
    | [], [] => true
    | [], _ :: _ => false
    | .anySeq :: ts1, [] => tokMatchF fuel ts1 []
    | .anySeq :: ts1, c :: cs =>
      tokMatchF fuel ts1 (c :: cs) || tokMatchF fuel (.anySeq :: ts1) cs
    | .anyOne :: _, [] => false
    | .anyOne :: ts1, _ :: cs => tokMatchF fuel ts1 cs
    | .cls _ _ :: _, [] => false
    | .cls neg rs :: ts1, c :: cs => (inRanges rs c != neg) && tokMatchF fuel ts1 cs
    | .lit _ :: _, [] => false
    | .lit p :: ts1, c :: cs => p == c && tokMatchF fuel ts1 cs

/-- Token matching at its sufficient fuel. -/
def tokMatch (ts : List GlobTok) (s : List Char) : Bool :=
  tokMatchF (ts.length + s.length + 1) ts s

/-- `fnmatch.fnmatch(path, pattern)` under POSIX (case-sensitive) rules. -/
def fnmatch (path pattern : String) : Bool :=
  tokMatch (patTokens pattern.data) path.data

/-- The `Settings` dataclass loaded from the environment (`load_settings`);
the broker credentials and scan interval are carried but irrelevant to the
verified properties. -/
structure Settings where
  mqttBroker : String
  mqttUsername : String
  mqttPassword : String
  scanInterval : Float
  includePatterns : List String
  excludePatterns : List String
  enableDiscovery : Bool
  discoveryPfx : String
  probeCommand : String

/-- `matches(path, patterns)` from `main.py` (the name `matches` is a Lean
keyword, hence `pathMatches`): true iff some pattern fnmatch-matches. -/
def pathMatches (path : String) (patterns : List String) : Bool :=
  patterns.any fun pat => fnmatch path pat

/-- `list_candidate_ports(cfg)`, with the host enumeration
(`serial.tools.list_ports.comports()` device names) passed in as `ports`:
keep the ports matching an include pattern and no exclude pattern, then
`sorted(set(...))` — deduplicate and sort ascending. -/
def list_candidate_ports (ports : List String) (cfg : Settings) : List String :=
  List.insertionSort (· ≤ ·)
    (ports.filter fun p =>
      pathMatches p cfg.includePatterns && !pathMatches p cfg.excludePatterns).dedup

/-! ## Line decoding (`line.decode("utf-8", errors="ignore").strip()`)

Bytes are modelled as `Nat` (each `< 256` in any real line).  CPython's
`ignore` error handler drops each maximal ill-formed subsequence: an
invalid start byte is skipped, and a truncated multi-byte sequence is
skipped up to (excluding) the first byte that breaks it. -/

/-- Is `b` a UTF-8 continuation byte (`0x80..0xBF`)? -/
def isCont (b : Nat) : Bool := 0x80 ≤ b && b ≤ 0xBF

/-- Valid first continuation byte of a 3-byte sequence led by `b`
(`0xE0` forbids overlong, `0xED` forbids surrogates). -/
def cont3First (b b2 : Nat) : Bool :=
  if b = 0xE0 then 0xA0 ≤ b2 && b2 ≤ 0xBF
  else if b = 0xED then 0x80 ≤ b2 && b2 ≤ 0x9F
  else isCont b2

/-- Valid first continuation byte of a 4-byte sequence led by `b`
(`0xF0` forbids overlong, `0xF4` caps at `U+10FFFF`). -/
def cont4First (b b2 : Nat) : Bool :=
  if b = 0xF0 then 0x90 ≤ b2 && b2 ≤ 0xBF
  else if b = 0xF4 then 0x80 ≤ b2 && b2 ≤ 0x8F
  else isCont b2

/-- `bytes.decode("utf-8", errors="ignore")`: decode well-formed sequences,
silently drop ill-formed maximal subparts.  Total — the `ignore` handler
never raises, which is why the `except` fallback to `line.hex()` in
`_read_loop` is unreachable.  The `fuel` makes the recursion structural;
every step consumes at least one byte, so `fuel = bs.length` suffices
(`utf8DecodeIgnoreF_eq`). -/
def utf8DecodeIgnoreF : Nat → List Nat → List Char
  | 0, _ => []
  | fuel + 1, bs =>
    match bs with
    | [] => []
    | b :: rest =>
      if b < 0x80 then Char.ofNat b :: utf8DecodeIgnoreF fuel rest
      else if 0xC2 ≤ b && b ≤ 0xDF then
        match rest with
        | [] => []
        | b2 :: tl2 =>
          if isCont b2 then
            Char.ofNat ((b - 0xC0) * 64 + (b2 - 0x80)) :: utf8DecodeIgnoreF fuel tl2
          else utf8DecodeIgnoreF fuel (b2 :: tl2)
      else if 0xE0 ≤ b && b ≤ 0xEF then
        match rest with
        | [] => []
        | c2 :: tl3 =>
          if cont3First b c2 then
            match tl3 with
            | [] => []
            | c3 :: tl4 =>
              if isCont c3 then
                Char.ofNat (((b - 0xE0) * 64 + (c2 - 0x80)) * 64 + (c3 - 0x80)) ::
                  utf8DecodeIgnoreF fuel tl4
              else utf8DecodeIgnoreF fuel (c3 :: tl4)
          else utf8DecodeIgnoreF fuel (c2 :: tl3)
      else if 0xF0 ≤ b && b ≤ 0xF4 then
        match rest with
        | [] => []
        | d2 :: tl5 =>
          if cont4First b d2 then
            match tl5 with
            | [] => []
            | d3 :: tl6 =>
              if isCont d3 then
                match tl6 with
                | [] => []
                | d4 :: tl7 =>
                  if isCont d4 then
                    Char.ofNat
                        ((((b - 0xF0) * 64 + (d2 - 0x80)) * 64 + (d3 - 0x80)) * 64 +
                          (d4 - 0x80)) ::
                      utf8DecodeIgnoreF fuel tl7
                  else utf8DecodeIgnoreF fuel (d4 :: tl7)
              else utf8DecodeIgnoreF fuel (d3 :: tl6)
          else utf8DecodeIgnoreF fuel (d2 :: tl5)
      else utf8DecodeIgnoreF fuel rest

/-- The decoder at its sufficient fuel. -/
def utf8DecodeIgnore (bs : List Nat) : List Char :=
  utf8DecodeIgnoreF bs.length bs

/-- `str.isspace` for a single character (the set `str.strip()` removes). -/
def pyIsSpace (c : Char) : Bool :=
  let n := c.toNat
  (9 ≤ n && n ≤ 13) || (28 ≤ n && n ≤ 31) || n == 32 || n == 0x85 || n == 0xA0 ||
    n == 0x1680 || (0x2000 ≤ n && n ≤ 0x200A) || n == 0x2028 || n == 0x2029 ||
    n == 0x202F || n == 0x205F || n == 0x3000

/-- `str.strip()`: drop leading and trailing whitespace. -/
def pyStrip (l : List Char) : List Char :=
  ((l.dropWhile pyIsSpace).reverse.dropWhile pyIsSpace).reverse

/-- The `data` payload `_read_loop` computes for one line:
`line.decode("utf-8", errors="ignore").strip()`. -/
def pyPayload (line : List Nat) : String :=
  String.mk (pyStrip (utf8DecodeIgnore line))

/-- Lower-case hex digit. -/
def hexDigit (n : Nat) : Char :=
  if n < 10 then Char.ofNat (48 + n) else Char.ofNat (87 + n)

/-- `bytes.hex()`: two lowercase hex digits per byte — the rendering the
spec promises for undecodable lines (the dead `except` branch of
`_read_loop`). -/
def pyHex (bs : List Nat) : String :=
  String.mk (bs.foldr (fun b acc => hexDigit (b / 16 % 16) :: hexDigit (b % 16) :: acc) [])

/-! ## Publishing (`SerialReader._publish_status`, `_publish`,
`_ensure_discovery`, `_slug`) -/

/-- `SerialReader._slug()`: the device path with `/` and `\` replaced by
`_` (two single-character `str.replace` passes, equivalent to one map
because the replacement `_` is neither pattern). -/
def pySlug (device : String) : String :=
  String.mk (device.data.map fun c => if c = '/' || c = '\\' then '_' else c)

/-- A published message body.  Status and data messages are JSON objects
with the fields built in `_publish_status` / `_publish` (the `ts` field is
`datetime.utcnow().isoformat()`, supplied by the environment); a discovery
message is the descriptor dict built in `_ensure_discovery`. -/
inductive Payload where
  | status (device state : String) (error : Option String) (ts : String)
  | data (device dataStr ts : String)
  | disc (name uniqueId stateTopic valueTemplate jsonAttrTopic availTopic availTemplate : String)
deriving DecidableEq

/-- One `mqtt.publish(topic, payload, qos, retain)` call. -/
structure Pub where
  topic : String
  payload : Payload
  qos : Nat
  retain : Bool
deriving DecidableEq

/-- Is this a Data message? -/
def Payload.isData : Payload → Bool
  | .data _ _ _ => true
  | _ => false

/-- Is this a Status message? -/
def Payload.isStatus : Payload → Bool
  | .status _ _ _ _ => true
  | _ => false

/-- Is this a discovery descriptor? -/
def Payload.isDisc : Payload → Bool
  | .disc _ _ _ _ _ _ _ => true
  | _ => false

/-- `_publish_status(state, error)`: topic `multi_serial/<slug>/status`,
`qos=1`, `retain=True`. -/
def publish_status (device state : String) (error : Option String) (ts : String) : Pub :=
  ⟨"multi_serial/" ++ pySlug device ++ "/status", .status device state error ts, 1, true⟩

/-- The data-message half of `_publish(data)`: topic
`multi_serial/<slug>/data`, `qos=0`, `retain=False`. -/
def publish_data (device dataStr ts : String) : Pub :=
  ⟨"multi_serial/" ++ pySlug device ++ "/data", .data device dataStr ts, 0, false⟩

/-- `_ensure_discovery()`: the retained Home-Assistant discovery descriptor
published to `<discovery_prefix>/sensor/<slug>/last/config` with `qos=1`.
Its content depends only on the device path and the prefix. -/
def ensure_discovery (pfx device : String) : Pub :=
  ⟨pfx ++ "/sensor/" ++ pySlug device ++ "/last/config",
    .disc ("Serial " ++ device ++ " Last")
      ("multi_serial_" ++ pySlug device)
      ("multi_serial/" ++ pySlug device ++ "/data")
      "\x7b\x7b value_json.data \x7d\x7d"
      ("multi_serial/" ++ pySlug device ++ "/status")
      ("multi_serial/" ++ pySlug device ++ "/status")
      "\x7b\x7b value_json.state \x7d\x7d",
    1, true⟩

/-! ## The reader lifecycle (`SerialReader.start` / `_read_loop`)

The stream is modelled as the list of results of successive `readline()`
awaits — each a byte line paired with the wall-clock string
`datetime.utcnow().isoformat()` observed when it is published — followed by
end-of-stream (`readline()` returning `b""`).  An empty line inside the
list likewise means end-of-stream, exactly as `if not line: break`. -/

/-- `_read_loop`: publish one data message per complete line (plus the
discovery descriptor when enabled), and on end-of-stream publish
`Status(disconnected, "eof")` and exit.  `tsEof` is the wall clock at the
end-of-stream publish. -/
def read_loop (cfg : Settings) (device : String) :
    List (List Nat × String) → String → List Pub
  | [], tsEof => [publish_status device "disconnected" (some "eof") tsEof]
  | (line, ts) :: rest, tsEof =>
    if line.isEmpty then [publish_status device "disconnected" (some "eof") ts]
    else
      publish_data device (pyPayload line) ts ::
        ((if cfg.enableDiscovery then [ensure_discovery cfg.discoveryPfx device] else []) ++
          read_loop cfg device rest tsEof)

/-- Everything a reader publishes over its life: `start()` either fails to
open (one `Status(error)` and no read task — the probe write and read loop
never happen) or opens, publishes `Status(connected)`, optionally writes
the probe command (swallowing failures, publishing nothing), and spawns
`_read_loop`. -/
def readerTrace (cfg : Settings) (device : String) (openRes : Except String Unit)
    (lines : List (List Nat × String)) (ts0 tsEof : String) : List Pub :=
  match openRes with
  | .error e => [publish_status device "error" (some e) ts0]
  | .ok _ => publish_status device "connected" none ts0 :: read_loop cfg device lines tsEof

/-- Whether `start()` assigned `self.task` (it does iff the open
succeeded). -/
def readerTaskCreated (openRes : Except String Unit) : Bool :=
  match openRes with
  | .error _ => false
  | .ok _ => true

/-! ## The reconciliation loop (`main_async`)

The managed set is the `readers` dict, represented by its key list (in
insertion order; Python `set` iteration order within one removal or
addition batch is unspecified and none of the verified properties depend
on it).  Each tick computes `wanted`, stops and pops the readers whose
device left `wanted`, then creates, registers and starts a reader for each
device newly in `wanted`. -/

/-- A reader-lifecycle operation performed by the loop. -/
inductive Op where
  | start (device : String)
  | stop (device : String)
deriving DecidableEq

/-- `list(readers.keys() - wanted)`: the devices stopped this tick. -/
def tickStops (managed wanted : List String) : List String :=
  managed.filter fun d => !wanted.contains d

/-- `wanted - set(readers.keys())`: the devices started this tick. -/
def tickStarts (managed wanted : List String) : List String :=
  wanted.filter fun d => !managed.contains d

/-- The operations of one tick, in program order: all stops of departed
devices first, then all starts of new devices. -/
def tickOps (managed wanted : List String) : List Op :=
  (tickStops managed wanted).map Op.stop ++ (tickStarts managed wanted).map Op.start

/-- The managed set after one tick: survivors (still wanted) plus the
newly started devices. -/
def tickManaged (managed wanted : List String) : List String :=
  managed.filter (fun d => wanted.contains d) ++ tickStarts managed wanted

/-! ## `SerialReader.stop()` under Python exception semantics

`stop()` does `task.cancel()` and then awaits the task inside
`contextlib.suppress(Exception)`.  Awaiting a task that was cancelled
raises `asyncio.CancelledError`, and since Python 3.8 `CancelledError`
derives from `BaseException`, not `Exception` — so the `suppress` block
does not catch it and `stop()` raises before reaching the writer close. -/

/-- The exceptions relevant to `stop()`. -/
inductive PyExc where
  | cancelled
  | ordinary (msg : String)
deriving DecidableEq

/-- Is the exception an `Exception` subclass?  `asyncio.CancelledError`
is not (it derives from `BaseException` since Python 3.8). -/
def PyExc.isExceptionSubclass : PyExc → Bool
  | .cancelled => false
  | .ordinary _ => true

/-- `contextlib.suppress(Exception)` around a block: swallows the raised
exception only when it is an `Exception` subclass. -/
def suppressException (r : Except PyExc Unit) : Except PyExc Unit :=
  match r with
  | .error e => if e.isExceptionSubclass then .ok () else .error e
  | .ok _ => .ok ()

/-- The reader's owned resources as `stop()` sees them: `self.task`
(`none` when never created, otherwise whether `task.done()`), and
`self.writer` (`none` when never opened, otherwise whether
`writer.is_closing()`). -/
structure ReaderRes where
  task : Option Bool
  writer : Option Bool
deriving DecidableEq

/-- The second half of `stop()`: `if self.writer and not
self.writer.is_closing(): close(); suppress(Exception): wait_closed()`.
`close()` does not raise and `wait_closed` failures are `Exception`s,
suppressed — so this half always succeeds. -/
def closeWriter (r : ReaderRes) : Except PyExc ReaderRes :=
  match r.writer with
  | some false => .ok { r with writer := some true }
  | _ => .ok r

/-- `SerialReader.stop()`: cancel and await the task (if live), then close
the writer (if open).  Awaiting the just-cancelled task raises
`CancelledError`, which `suppress(Exception)` does not swallow, so a stop
of a live reader raises and never reaches the writer close. -/
def readerStopRun (r : ReaderRes) : Except PyExc ReaderRes :=
  match r.task with
  | some false =>
    match suppressException (.error .cancelled) with
    | .error e => .error e
    | .ok _ => closeWriter { r with task := some true }
  | _ => closeWriter r

/-! ## The whole reconciliation loop with faithful `stop()` outcomes

The `readers` dict is a list of device/`ReaderRes` pairs in insertion
order.  Every `await r.stop()` the loop performs — removals inside the
`try:` body and the stop-everything sweep in the `finally:` — uses
`readerStopRun`, so a stop of a reader with a live task raises
`CancelledError` exactly as in the source (see C7); the model does not
assume any stop succeeds. -/

/-- An exception in flight out of the `try:` body of `main_async`: the
original listing failure, or a Python exception raised by an `await
r.stop()`. -/
inductive LoopExc where
  | listing (e : String)
  | pyexc (exc : PyExc)
deriving DecidableEq

/-- Between two ticks a reader's background task may have finished on its
own (end-of-stream, or any other escape from `_read_loop`): its `task`
moves from live (`some false`) to done (`some true`).  Nothing else about
a reader changes without a `stop()`.  `eofDone` names the devices whose
task completed since the previous tick. -/
def applyEof (eofDone : String → Bool) (managed : List (String × ReaderRes)) :
    List (String × ReaderRes) :=
  managed.map fun dr =>
    if eofDone dr.1 then (dr.1, { dr.2 with task := dr.2.task.map fun _ => true }) else dr

/-- One tick's input from the environment: which readers' tasks completed
since the last tick, and the enumeration outcome —
`serial.tools.list_ports.comports()` raising (`fail`) or returning a port
list (`listed`, together with the open outcome `start()` would observe for
each reader created this tick). -/
inductive TickIn where
  | fail (eofDone : String → Bool) (e : String)
  | listed (eofDone : String → Bool) (ports : List String)
      (openRes : String → Except String Unit)

/-- Outcome of the removal phase of one tick. -/
structure RemovalResult where
  ops : List Op
  dict : List (String × ReaderRes)
  exc : Option PyExc
deriving DecidableEq

/-- The removal phase, `for dev in list(readers.keys() - wanted): await
readers.pop(dev).stop()`: each departed reader is popped and then stopped;
the first stop that raises escapes the loop body, leaving the departed
readers after it still popped-pending (un-popped, un-stopped) in the dict.
Departed readers are visited in dict order (Python's set iteration order
within the batch is unspecified; no verified property depends on it). -/
def stopDeparted (wanted : List String) : List (String × ReaderRes) → RemovalResult
  | [] => ⟨[], [], none⟩
  | (d, r) :: rest =>
    if wanted.contains d then
      let res := stopDeparted wanted rest
      ⟨res.ops, (d, r) :: res.dict, res.exc⟩
    else
      match readerStopRun r with
      | .error exc => ⟨[], rest, some exc⟩
      | .ok _ =>
        let res := stopDeparted wanted rest
        ⟨Op.stop d :: res.ops, res.dict, res.exc⟩

/-- The addition phase, `for dev in wanted - set(readers.keys()): ...`:
create a reader, register it, `await reader.start()`.  `start()` never
raises into the loop — an open failure is caught inside it (the reader is
left with no task and no writer) and the probe write is swallowed; a
successful open leaves an open writer and a live read task. -/
def startAdded (managedKeys wanted : List String)
    (openRes : String → Except String Unit) : List Op × List (String × ReaderRes) :=
  let newDevs := wanted.filter fun d => !managedKeys.contains d
  (newDevs.map Op.start,
    newDevs.map fun d =>
      (d, match openRes d with
          | .error _ => ⟨none, none⟩
          | .ok _ => ⟨some false, some false⟩))

/-- The `finally:` sweep `for r in readers.values(): await r.stop()`, in
dict order: the first stop that raises aborts the sweep (later readers
stay unstopped and `loop_stop`/`disconnect` are skipped). -/
def stopAll : List (String × ReaderRes) → Except PyExc Unit
  | [] => .ok ()
  | (_, r) :: rest =>
    match readerStopRun r with
    | .error exc => .error exc
    | .ok _ => stopAll rest

/-- What finally propagates out of `main_async` once the exception
`inflight` has escaped the `try:` body with the dict in state `managed`:
if the `finally:` sweep completes, `loop_stop()` and `disconnect()` run
(they do not raise) and `inflight` propagates; if a stop in the sweep
raises, that exception replaces the in-flight one. -/
def escapeExit (managed : List (String × ReaderRes)) (inflight : LoopExc) : LoopExc :=
  match stopAll managed with
  | .ok _ => inflight
  | .error exc => .pyexc exc

/-- The reconciliation loop over a finite schedule of tick inputs.
Returns the reconciliation operations performed, the readers dict (when
the schedule ends with the loop still running, its current state; when an
exception escaped, its state at the moment of escape, before the
`finally:` sweep), and the exception propagating out of `main_async`, if
any.  A `fail` tick raises at the enumeration — before any stop or start
of that tick — and later ticks never run. -/
def runTicks (cfg : Settings) (managed : List (String × ReaderRes)) :
    List TickIn → List Op × List (String × ReaderRes) × Option LoopExc
  | [] => ([], managed, none)
  | .fail eofDone e :: _ =>
    let m := applyEof eofDone managed
    ([], m, some (escapeExit m (.listing e)))
  | .listed eofDone ports openRes :: rest =>
    let m := applyEof eofDone managed
    let wanted := list_candidate_ports ports cfg
    let rem := stopDeparted wanted m
    match rem.exc with
    | some exc => (rem.ops, rem.dict, some (escapeExit rem.dict (.pyexc exc)))
    | none =>
      let added := startAdded (rem.dict.map Prod.fst) wanted openRes
      let next := runTicks cfg (rem.dict ++ added.2) rest
      (rem.ops ++ added.1 ++ next.1, next.2.1, next.2.2)

/-! ## Example configurations (the `load_settings` defaults) -/

/-- The default settings of `load_settings` (no environment overrides). -/
def cfgExample : Settings :=
  ⟨"mqtt://homeassistant:1883", "", "", 1.0,
    ["/dev/ttyUSB*", "/dev/ttyACM*"], ["/dev/ttyS*", "/dev/input*", "/dev/hidraw*"],
    true, "homeassistant", ""⟩

/-- The defaults with discovery turned off (`ENABLE_DISCOVERY=false`). -/
def cfgNoDiscovery : Settings :=
  ⟨"mqtt://homeassistant:1883", "", "", 1.0,
    ["/dev/ttyUSB*", "/dev/ttyACM*"], ["/dev/ttyS*", "/dev/input*", "/dev/hidraw*"],
    false, "homeassistant", ""⟩

/-! ## Spec-side predicates (for stating the claims) -/

/-- Is `p` a stop operation? -/
def Op.isStop : Op → Bool
  | .stop _ => true
  | _ => false

/-- Is `p` a start operation? -/
def Op.isStart : Op → Bool
  | .start _ => true
  | _ => false

/-- The spec's topic/QoS/retain contract (§6): status on
`multi_serial/<slug>/status` at-least-once retained, data on
`multi_serial/<slug>/data` at-most-once non-retained, discovery on
`<discovery_prefix>/sensor/<slug>/last/config` at-least-once retained. -/
def pubWellFormed (cfg : Settings) (dev : String) (p : Pub) : Bool :=
  match p.payload with
  | .status _ _ _ _ =>
    p.topic == "multi_serial/" ++ pySlug dev ++ "/status" && p.qos == 1 && p.retain
  | .data _ _ _ =>
    p.topic == "multi_serial/" ++ pySlug dev ++ "/data" && p.qos == 0 && !p.retain
  | .disc _ _ _ _ _ _ _ =>
    p.topic == cfg.discoveryPfx ++ "/sensor/" ++ pySlug dev ++ "/last/config" &&
      p.qos == 1 && p.retain

/-- Is `p` the end-of-stream status message of device `dev`? -/
def isEofStatus (dev : String) (p : Pub) : Bool :=
  match p.payload with
  | .status d st er _ => d == dev && st == "disconnected" && er == some "eof"
  | _ => false

/-!
# Theorems

First the infrastructure lemmas (bracket-parse sizes and fuel sufficiency
of the structurally fuelled functions), then one theorem per specification
claim.
-/

theorem findClose_length :
    ∀ (l chunk r : List Char), findClose l = some (chunk, r) → r.length < l.length := by
  intro l
  induction l with
  | nil => intro chunk r h; simp [findClose] at h
  | cons c rest ih =>
    intro chunk r h
    simp only [findClose] at h
    split at h
    · cases h; simp
    · cases hfc : findClose rest with
      | none => rw [hfc] at h; cases h
      | some p =>
        rw [hfc] at h
        have h2 : r = p.2 := by cases p; cases h; rfl
        have hlt := ih p.1 p.2 (by rw [hfc])
        rw [h2]
        simp only [List.length_cons]
        omega

theorem stripNeg_length (ps : List Char) : (stripNeg ps).2.length ≤ ps.length := by
  cases ps with
  | nil => simp [stripNeg]
  | cons c rest =>
    simp only [stripNeg]
    split <;> simp

theorem parseBracket_length (ps : List Char) (neg : Bool) (rs : List (Char × Char))
    (rest : List Char) (h : parseBracket ps = some (neg, rs, rest)) :
    rest.length < ps.length := by
  have hsl := stripNeg_length ps
  simp only [parseBracket] at h
  split at h
  case h_1 r heq =>
    cases hfc : findClose r with
    | none => rw [hfc] at h; cases h
    | some p =>
      rw [hfc] at h
      have h2 : rest = p.2 := by cases p; cases h; rfl
      have hlt := findClose_length r p.1 p.2 (by rw [hfc])
      rw [heq] at hsl
      rw [h2]
      simp only [List.length_cons] at hsl
      omega
  case h_2 =>
    cases hfc : findClose (stripNeg ps).2 with
    | none => rw [hfc] at h; cases h
    | some p =>
      rw [hfc] at h
      have h2 : rest = p.2 := by cases p; cases h; rfl
      have hlt := findClose_length (stripNeg ps).2 p.1 p.2 (by rw [hfc])
      rw [h2]
      omega

/-- Any sufficient fuel computes the same token list, so `patTokens`'s
fuel bound is not a truncation. -/
theorem patTokensF_eq : ∀ (f1 f2 : Nat) (ps : List Char),
    ps.length ≤ f1 → ps.length ≤ f2 → patTokensF f1 ps = patTokensF f2 ps := by
  intro f1
  induction f1 with
  | zero =>
    intro f2 ps h1 h2
    cases ps with
    | nil => cases f2 <;> rfl
    | cons c rest => simp at h1
  | succ f ih =>
    intro f2 ps h1 h2
    cases ps with
    | nil => cases f2 <;> rfl
    | cons c rest =>
      cases f2 with
      | zero => simp at h2
      | succ g =>
        simp only [List.length_cons] at h1 h2
        have hr1 : rest.length ≤ f := by omega
        have hr2 : rest.length ≤ g := by omega
        simp only [patTokensF]
        split_ifs
        · exact congrArg _ (ih g rest hr1 hr2)
        · exact congrArg _ (ih g rest hr1 hr2)
        · cases hpb : parseBracket rest with
          | none => exact congrArg _ (ih g rest hr1 hr2)
          | some v =>
            obtain ⟨neg, rs, rest2⟩ := v
            have := parseBracket_length rest neg rs rest2 hpb
            exact congrArg _ (ih g rest2 (by omega) (by omega))
        · exact congrArg _ (ih g rest hr1 hr2)

/-- Any sufficient fuel computes the same match result, so `tokMatch`'s
fuel bound is not a truncation. -/
theorem tokMatchF_eq : ∀ (f1 f2 : Nat) (ts : List GlobTok) (s : List Char),
    ts.length + s.length < f1 → ts.length + s.length < f2 →
    tokMatchF f1 ts s = tokMatchF f2 ts s := by
  intro f1
  induction f1 with
  | zero => intro f2 ts s h1 h2; omega
  | succ f ih =>
    intro f2 ts s h1 h2
    cases f2 with
    | zero => omega
    | succ g =>
      match ts, s with
      | [], [] => rfl
      | [], _ :: _ => rfl
      | .anySeq :: ts1, [] =>
        simp only [List.length_cons] at h1 h2
        exact ih g ts1 [] (by omega) (by omega)
      | .anySeq :: ts1, c :: cs =>
        simp only [List.length_cons] at h1 h2
        show (tokMatchF f ts1 (c :: cs) || tokMatchF f (.anySeq :: ts1) cs)
            = (tokMatchF g ts1 (c :: cs) || tokMatchF g (.anySeq :: ts1) cs)
        rw [ih g ts1 (c :: cs) (by first | omega | (simp; omega))
            (by first | omega | (simp; omega)),
          ih g (.anySeq :: ts1) cs (by first | omega | (simp; omega))
            (by first | omega | (simp; omega))]
      | .anyOne :: ts1, [] => rfl
      | .anyOne :: ts1, c :: cs =>
        simp only [List.length_cons] at h1 h2
        exact ih g ts1 cs (by omega) (by omega)
      | .cls neg rs :: ts1, [] => rfl
      | .cls neg rs :: ts1, c :: cs =>
        simp only [List.length_cons] at h1 h2
        show ((inRanges rs c != neg) && tokMatchF f ts1 cs)
            = ((inRanges rs c != neg) && tokMatchF g ts1 cs)
        rw [ih g ts1 cs (by omega) (by omega)]
      | .lit p :: ts1, [] => rfl
      | .lit p :: ts1, c :: cs =>
        simp only [List.length_cons] at h1 h2
        show (p == c && tokMatchF f ts1 cs) = (p == c && tokMatchF g ts1 cs)
        rw [ih g ts1 cs (by omega) (by omega)]

/-- Any sufficient fuel decodes identically, so `utf8DecodeIgnore`'s fuel
bound is not a truncation. -/
theorem utf8DecodeIgnoreF_eq : ∀ (f1 f2 : Nat) (bs : List Nat),
    bs.length ≤ f1 → bs.length ≤ f2 → utf8DecodeIgnoreF f1 bs = utf8DecodeIgnoreF f2 bs := by
  intro f1
  induction f1 with
  | zero =>
    intro f2 bs h1 h2
    cases bs with
    | nil => cases f2 <;> rfl
    | cons b rest => simp at h1
  | succ f ih =>
    intro f2 bs h1 h2
    cases bs with
    | nil => cases f2 <;> rfl
    | cons b rest =>
      cases f2 with
      | zero => simp at h2
      | succ g =>
        simp only [List.length_cons] at h1 h2
        simp only [utf8DecodeIgnoreF]
        split_ifs
        · exact congrArg _ (ih g rest (by omega) (by omega))
        · cases rest with
          | nil => rfl
          | cons b2 tl2 =>
            simp only [List.length_cons] at h1 h2
            dsimp only
            split_ifs
            · exact congrArg _ (ih g tl2 (by omega) (by omega))
            · exact ih g (b2 :: tl2) (by simp only [List.length_cons]; omega)
                (by simp only [List.length_cons]; omega)
        · cases rest with
          | nil => rfl
          | cons c2 tl3 =>
            simp only [List.length_cons] at h1 h2
            dsimp only
            split_ifs
            · cases tl3 with
              | nil => rfl
              | cons c3 tl4 =>
                simp only [List.length_cons] at h1 h2
                dsimp only
                split_ifs
                · exact congrArg _ (ih g tl4 (by omega) (by omega))
                · exact ih g (c3 :: tl4) (by simp only [List.length_cons]; omega)
                    (by simp only [List.length_cons]; omega)
            · exact ih g (c2 :: tl3) (by simp only [List.length_cons]; omega)
                (by simp only [List.length_cons]; omega)
        · cases rest with
          | nil => rfl
          | cons d2 tl5 =>
            simp only [List.length_cons] at h1 h2
            dsimp only
            split_ifs
            · cases tl5 with
              | nil => rfl
              | cons d3 tl6 =>
                simp only [List.length_cons] at h1 h2
                dsimp only
                split_ifs
                · cases tl6 with
                  | nil => rfl
                  | cons d4 tl7 =>
                    simp only [List.length_cons] at h1 h2
                    dsimp only
                    split_ifs
                    · exact congrArg _ (ih g tl7 (by omega) (by omega))
                    · exact ih g (d4 :: tl7) (by simp only [List.length_cons]; omega)
                        (by simp only [List.length_cons]; omega)
                · exact ih g (d3 :: tl6) (by simp only [List.length_cons]; omega)
                    (by simp only [List.length_cons]; omega)
            · exact ih g (d2 :: tl5) (by simp only [List.length_cons]; omega)
                (by simp only [List.length_cons]; omega)
        · exact ih g rest (by omega) (by omega)

/-- **C4.**  For every device path `p`, every settings value and every host
enumeration `ports`, `p` is in the candidate list returned by
`list_candidate_ports` iff `p` was enumerated, matches at least one include
glob pattern, and matches none of the exclude glob patterns — where glob
matching is `fnmatch`'s standard shell-wildcard, full-path, case-sensitive
(POSIX) semantics. -/
theorem claim_C4_candidate_filter (cfg : Settings) (ports : List String) (p : String) :
    p ∈ list_candidate_ports ports cfg ↔
      p ∈ ports ∧ pathMatches p cfg.includePatterns = true ∧
        pathMatches p cfg.excludePatterns = false := by
  unfold list_candidate_ports
  rw [List.mem_insertionSort, List.mem_dedup, List.mem_filter]
  simp [Bool.and_eq_true, Bool.not_eq_true', and_assoc]

/-- **C10.**  For every settings value the candidate list is sorted in
ascending order and duplicate-free even when the host listing repeats a
device path, and it is determined by the *set* of enumerated ports: any two
enumerations with the same membership yield the same candidate list. -/
theorem claim_C10_sorted_nodup_deterministic (cfg : Settings) (ports1 ports2 : List String)
    (hmem : ∀ p, p ∈ ports1 ↔ p ∈ ports2) :
    List.Sorted (· ≤ ·) (list_candidate_ports ports1 cfg) ∧
    (list_candidate_ports ports1 cfg).Nodup ∧
    list_candidate_ports ports1 cfg = list_candidate_ports ports2 cfg := by
  refine ⟨List.sorted_insertionSort _ _, ?_, ?_⟩
  · exact ((List.perm_insertionSort _ _).nodup_iff).mpr (List.nodup_dedup _)
  · have hperm :
        List.Perm
          (ports1.filter fun p =>
            pathMatches p cfg.includePatterns && !pathMatches p cfg.excludePatterns).dedup
          (ports2.filter fun p =>
            pathMatches p cfg.includePatterns && !pathMatches p cfg.excludePatterns).dedup := by
      rw [List.perm_ext_iff_of_nodup (List.nodup_dedup _) (List.nodup_dedup _)]
      intro a
      rw [List.mem_dedup, List.mem_dedup, List.mem_filter, List.mem_filter]
      rw [hmem a]
    exact List.eq_of_perm_of_sorted
      (((List.perm_insertionSort _ _).trans hperm).trans (List.perm_insertionSort _ _).symm)
      (List.sorted_insertionSort _ _) (List.sorted_insertionSort _ _)

/-- Witness for C10 at a concrete repeated, shuffled enumeration. -/
theorem claim_C10_witness :
    List.Sorted (· ≤ ·)
      (list_candidate_ports ["/dev/ttyUSB1", "/dev/ttyUSB0", "/dev/ttyUSB0"] cfgExample) ∧
    (list_candidate_ports ["/dev/ttyUSB1", "/dev/ttyUSB0", "/dev/ttyUSB0"] cfgExample).Nodup ∧
    list_candidate_ports ["/dev/ttyUSB1", "/dev/ttyUSB0", "/dev/ttyUSB0"] cfgExample =
      list_candidate_ports ["/dev/ttyUSB0", "/dev/ttyUSB1"] cfgExample :=
  claim_C10_sorted_nodup_deterministic cfgExample
    ["/dev/ttyUSB1", "/dev/ttyUSB0", "/dev/ttyUSB0"] ["/dev/ttyUSB0", "/dev/ttyUSB1"]
    (by intro p; simp only [List.mem_cons, List.not_mem_nil]; tauto)

/-- **C2.**  In every reconciliation tick the departed readers are stopped
and removed before any new reader is created: the tick's operation list is
its stops followed by its starts, a device is stopped iff it was managed
and left the candidate set, started iff newly in the candidate set; after
the tick the managed set equals the candidate set; and an unchanged
candidate set performs zero operations. -/
theorem claim_C2_tick_reconciliation (managed wanted : List String) :
    (∀ d, d ∈ tickManaged managed wanted ↔ d ∈ wanted) ∧
    (∀ d, Op.stop d ∈ tickOps managed wanted ↔ d ∈ managed ∧ d ∉ wanted) ∧
    (∀ d, Op.start d ∈ tickOps managed wanted ↔ d ∈ wanted ∧ d ∉ managed) ∧
    tickOps managed wanted =
      ((tickOps managed wanted).filter Op.isStop) ++
        ((tickOps managed wanted).filter Op.isStart) ∧
    ((∀ d, d ∈ managed ↔ d ∈ wanted) → tickOps managed wanted = []) := by
  refine ⟨?_, ?_, ?_, ?_, ?_⟩
  · intro d
    simp [tickManaged, tickStarts, List.mem_filter]
    tauto
  · intro d
    simp [tickOps, tickStops, tickStarts, List.mem_map, List.mem_filter]
  · intro d
    simp [tickOps, tickStops, tickStarts, List.mem_map, List.mem_filter]
  · simp only [tickOps, List.filter_append]
    rw [List.filter_map, List.filter_map, List.filter_map, List.filter_map]
    simp [Function.comp_def, Op.isStop, Op.isStart]
  · intro h
    have hstops : tickStops managed wanted = [] := by
      rw [tickStops, List.filter_eq_nil_iff]
      intro d hd
      simp [(h d).mp hd]
    have hstarts : tickStarts managed wanted = [] := by
      rw [tickStarts, List.filter_eq_nil_iff]
      intro d hd
      simp [(h d).mpr hd]
    simp [tickOps, hstops, hstarts]

/-- Witness for C2 at a concrete unchanged candidate set. -/
theorem claim_C2_witness :
    tickOps ["/dev/ttyUSB0", "/dev/ttyACM0"] ["/dev/ttyUSB0", "/dev/ttyACM0"] = [] :=
  (claim_C2_tick_reconciliation ["/dev/ttyUSB0", "/dev/ttyACM0"]
      ["/dev/ttyUSB0", "/dev/ttyACM0"]).2.2.2.2 (fun _ => Iff.rfl)

theorem closeWriter_ok (r : ReaderRes) : ∃ r2, closeWriter r = .ok r2 := by
  unfold closeWriter
  cases hw : r.writer with
  | none => exact ⟨r, rfl⟩
  | some b => cases b with
    | false => exact ⟨_, rfl⟩
    | true => exact ⟨r, rfl⟩

/-- A stop of a reader whose task is not live (never created, or already
done) returns normally. -/
theorem readerStopRun_not_live (r : ReaderRes) (h : r.task ≠ some false) :
    ∃ r2, readerStopRun r = .ok r2 := by
  unfold readerStopRun
  cases ht : r.task with
  | none => exact closeWriter_ok r
  | some b =>
    cases b with
    | false => exact absurd ht h
    | true => exact closeWriter_ok r

/-- A stop of a reader with a live task raises `CancelledError` (C7). -/
theorem readerStopRun_live (r : ReaderRes) (h : r.task = some false) :
    readerStopRun r = .error PyExc.cancelled := by
  unfold readerStopRun
  rw [h]
  rfl

/-- The `finally:` sweep completes when no managed reader has a live
task. -/
theorem stopAll_ok (m : List (String × ReaderRes))
    (h : ∀ dr ∈ m, dr.2.task ≠ some false) : stopAll m = .ok () := by
  induction m with
  | nil => rfl
  | cons dr rest ih =>
    obtain ⟨d, r⟩ := dr
    obtain ⟨r2, hr⟩ := readerStopRun_not_live r (h (d, r) (List.mem_cons_self _ _))
    simp only [stopAll, hr]
    exact ih fun x hx => h x (List.mem_cons_of_mem _ hx)

/-- The `finally:` sweep raises `CancelledError` as soon as it reaches a
reader with a live task. -/
theorem stopAll_cancelled (m : List (String × ReaderRes))
    (h : ∃ dr ∈ m, dr.2.task = some false) : stopAll m = .error PyExc.cancelled := by
  induction m with
  | nil => simp at h
  | cons dr rest ih =>
    obtain ⟨d, r⟩ := dr
    by_cases hr : r.task = some false
    · simp only [stopAll, readerStopRun_live r hr]
    · obtain ⟨r2, hok⟩ := readerStopRun_not_live r hr
      simp only [stopAll, hok]
      apply ih
      rcases h with ⟨x, hx, hlive⟩
      rcases List.mem_cons.mp hx with heq | hmem
      · rw [heq] at hlive; exact absurd hlive hr
      · exact ⟨x, hmem, hlive⟩

/-- **C3, counterexample.**  The claim says a failed host listing abandons
only that tick (candidate set treated as empty), is never propagated as
fatal, and enumeration is retried at the next interval.  In the code
`list_candidate_ports` and `main_async` have no handler, so with no
managed readers, a listing failure at the first tick and `/dev/ttyUSB0`
present at the second, the loop performs no operation at all — the device
is never started because the second tick never runs — and the listing
error escapes `main_async`. -/
theorem claim_C3_counterexample :
    runTicks cfgExample []
        [TickIn.fail (fun _ => false) "oserror",
          TickIn.listed (fun _ => false) ["/dev/ttyUSB0"] (fun _ => .ok ())] =
      ([], [], some (LoopExc.listing "oserror")) ∧
    Op.start "/dev/ttyUSB0" ∉
      (runTicks cfgExample []
        [TickIn.fail (fun _ => false) "oserror",
          TickIn.listed (fun _ => false) ["/dev/ttyUSB0"] (fun _ => .ok ())]).1 ∧
    (runTicks cfgExample []
        [TickIn.fail (fun _ => false) "oserror",
          TickIn.listed (fun _ => false) ["/dev/ttyUSB0"] (fun _ => .ok ())]).2.2 ≠
      none := by
  refine ⟨rfl, ?_, ?_⟩
  · simp [runTicks, applyEof, escapeExit, stopAll]
  · simp [runTicks, applyEof, escapeExit, stopAll]

/-- **C3, amended.**  If the host port-listing raises during a tick, that
tick performs no reconciliation operation (the raise happens at the
enumeration, before the removal loop) and the exception escapes the
`while True:` body — the failure is fatal to the loop and enumeration is
not retried: later ticks never run.  On the way out the `finally:` sweep
stops the managed readers in order; if none has a live read task every
stop returns and the listing error itself propagates out of `main_async`,
while if some reader's task is live its stop raises `CancelledError`
(C7), which propagates instead — either way the loop is gone. -/
theorem claim_C3_listing_failure_fatal (cfg : Settings)
    (managed : List (String × ReaderRes)) (eofDone : String → Bool) (e : String)
    (rest : List TickIn) :
    runTicks cfg managed (.fail eofDone e :: rest) =
      ([], applyEof eofDone managed,
        some (escapeExit (applyEof eofDone managed) (.listing e))) ∧
    ((∀ dr ∈ applyEof eofDone managed, dr.2.task ≠ some false) →
      escapeExit (applyEof eofDone managed) (.listing e) = .listing e) ∧
    ((∃ dr ∈ applyEof eofDone managed, dr.2.task = some false) →
      escapeExit (applyEof eofDone managed) (.listing e) = .pyexc PyExc.cancelled) := by
  refine ⟨rfl, ?_, ?_⟩
  · intro h
    unfold escapeExit
    rw [stopAll_ok _ h]
  · intro h
    unfold escapeExit
    rw [stopAll_cancelled _ h]

/-- Witness for C3's amended theorem, both cleanup outcomes: with one
managed reader whose task already finished the listing error itself
propagates; with one live reader the finally's stop raises and
`CancelledError` propagates instead (and either way no later tick runs —
the schedule beyond the failure is ignored). -/
theorem claim_C3_witness :
    runTicks cfgExample [("/dev/ttyUSB0", ⟨some true, some true⟩)]
        [TickIn.fail (fun _ => false) "boom",
          TickIn.listed (fun _ => false) ["/dev/ttyUSB0"] (fun _ => .ok ())] =
      ([], [("/dev/ttyUSB0", ⟨some true, some true⟩)],
        some (LoopExc.listing "boom")) ∧
    runTicks cfgExample [("/dev/ttyUSB0", ⟨some false, some false⟩)]
        [TickIn.fail (fun _ => false) "boom"] =
      ([], [("/dev/ttyUSB0", ⟨some false, some false⟩)],
        some (LoopExc.pyexc PyExc.cancelled)) := by
  constructor
  · have h := claim_C3_listing_failure_fatal cfgExample
      [("/dev/ttyUSB0", ⟨some true, some true⟩)] (fun _ => false) "boom"
      [TickIn.listed (fun _ => false) ["/dev/ttyUSB0"] (fun _ => .ok ())]
    rw [h.1, h.2.1 (by decide)]
    rfl
  · have h := claim_C3_listing_failure_fatal cfgExample
      [("/dev/ttyUSB0", ⟨some false, some false⟩)] (fun _ => false) "boom" []
    rw [h.1, h.2.2 ⟨("/dev/ttyUSB0", ⟨some false, some false⟩), by decide, rfl⟩]
    rfl

/-- **C5.**  If the open in `start()` fails, the reader publishes exactly
one Status message — `state=error`, `error` the failure message, `qos=1`
(at-least-once), retained — creates no read task, and publishes no Data
message ever (for any stream contents). -/
theorem claim_C5_open_failure (cfg : Settings) (dev e : String)
    (lines : List (List Nat × String)) (ts0 tsEof : String) :
    readerTrace cfg dev (.error e) lines ts0 tsEof =
      [publish_status dev "error" (some e) ts0] ∧
    (publish_status dev "error" (some e) ts0).payload =
      Payload.status dev "error" (some e) ts0 ∧
    (publish_status dev "error" (some e) ts0).qos = 1 ∧
    (publish_status dev "error" (some e) ts0).retain = true ∧
    readerTaskCreated (.error e) = false ∧
    (readerTrace cfg dev (.error e) lines ts0 tsEof).all
      (fun p => !p.payload.isData) = true := by
  exact ⟨rfl, rfl, rfl, rfl, rfl, rfl⟩

/-- `read_loop` always ends with exactly one end-of-stream status: it is
the last message, and no earlier message is an end-of-stream status. -/
theorem read_loop_ends_with_eof (cfg : Settings) (dev : String)
    (lines : List (List Nat × String)) (tsEof : String) :
    ∃ pre ts,
      read_loop cfg dev lines tsEof =
        pre ++ [publish_status dev "disconnected" (some "eof") ts] ∧
      pre.all (fun p => !isEofStatus dev p) = true := by
  induction lines with
  | nil => exact ⟨[], tsEof, rfl, rfl⟩
  | cons lt rest ih =>
    obtain ⟨line, ts⟩ := lt
    by_cases hempty : line.isEmpty
    · exact ⟨[], ts, by simp [read_loop, hempty], rfl⟩
    · obtain ⟨pre, ts2, heq, hall⟩ := ih
      refine ⟨publish_data dev (pyPayload line) ts ::
        ((if cfg.enableDiscovery then [ensure_discovery cfg.discoveryPfx dev] else []) ++ pre),
        ts2, ?_, ?_⟩
      · simp [read_loop, hempty, heq]
      · simp only [List.all_cons, List.all_append, Bool.and_eq_true]
        refine ⟨rfl, ?_, hall⟩
        split <;> simp [isEofStatus, ensure_discovery]

/-- **C6.**  When the read loop hits end-of-stream it publishes exactly one
Status message with `state=disconnected`, `error="eof"`, retained at
`qos=1`, as its final act: the message closes the trace (the loop exits,
and the reader publishes nothing afterwards and never restarts itself). -/
theorem claim_C6_eof_terminal (cfg : Settings) (dev : String)
    (lines : List (List Nat × String)) (tsEof : String) :
    ∃ pre ts,
      read_loop cfg dev lines tsEof =
        pre ++ [publish_status dev "disconnected" (some "eof") ts] ∧
      pre.all (fun p => !isEofStatus dev p) = true ∧
      isEofStatus dev (publish_status dev "disconnected" (some "eof") ts) = true ∧
      (publish_status dev "disconnected" (some "eof") ts).qos = 1 ∧
      (publish_status dev "disconnected" (some "eof") ts).retain = true := by
  obtain ⟨pre, ts, heq, hall⟩ := read_loop_ends_with_eof cfg dev lines tsEof
  exact ⟨pre, ts, heq, hall, by simp [isEofStatus, publish_status], rfl, rfl⟩

/-- **C1, counterexample.**  The claim says a line of invalid UTF-8 yields
`data` equal to the lowercase hex of the raw bytes.  But `_read_loop`
decodes with `errors="ignore"`, which never raises, so the `except` branch
computing `line.hex()` is unreachable: the line `b"\xff\xfe"` produces
`data = ""` (all bytes dropped), not `"fffe"`. -/
theorem claim_C1_counterexample :
    pyPayload [0xff, 0xfe] = "" ∧
    pyHex [0xff, 0xfe] = "fffe" ∧
    read_loop cfgNoDiscovery "/dev/ttyUSB0" [([0xff, 0xfe], "t0")] "t1" =
      [publish_data "/dev/ttyUSB0" "" "t0",
        publish_status "/dev/ttyUSB0" "disconnected" (some "eof") "t1"] ∧
    ("" : String) ≠ "fffe" := by
  refine ⟨by decide, by decide, by decide, by decide⟩

theorem isData_publish_data (dev s ts : String) :
    (publish_data dev s ts).payload.isData = true := rfl

theorem isData_publish_status (dev st : String) (er : Option String) (ts : String) :
    (publish_status dev st er ts).payload.isData = false := rfl

theorem isData_ensure_discovery (pfx dev : String) :
    (ensure_discovery pfx dev).payload.isData = false := rfl

/-- **C1, amended.**  Every complete (non-empty) line received yields
exactly one Data message, whose `data` field is the UTF-8 decoding of the
line's bytes with undecodable bytes silently dropped (`errors="ignore"`)
and surrounding whitespace stripped; the hexadecimal fallback is dead
code, so a line consisting entirely of invalid UTF-8 yields the empty
string. -/
theorem claim_C1_line_decoding (cfg : Settings) (dev : String)
    (lines : List (List Nat × String)) (tsEof : String)
    (hne : ∀ lt ∈ lines, lt.1 ≠ []) :
    (read_loop cfg dev lines tsEof).filter (fun p => p.payload.isData) =
      lines.map fun lt => publish_data dev (pyPayload lt.1) lt.2 := by
  induction lines with
  | nil => rfl
  | cons lt rest ih =>
    obtain ⟨line, ts⟩ := lt
    have hne0 : line ≠ [] := hne (line, ts) (List.mem_cons_self _ _)
    have hl : line.isEmpty = false := by
      cases line with
      | nil => exact absurd rfl hne0
      | cons a as => rfl
    have hrest := ih fun x hx => hne x (List.mem_cons_of_mem _ hx)
    cases hdisc : cfg.enableDiscovery <;>
      simp [read_loop, hl, hdisc, List.filter_cons, List.filter_append, hrest,
        isData_publish_data, isData_ensure_discovery]

/-- Witness for C1's amended theorem: a line with an invalid byte in the
middle gives the decoded-ignoring payload `"A"`, not hex. -/
theorem claim_C1_witness :
    (read_loop cfgExample "/dev/ttyUSB0" [([0x41, 0xff, 0x0a], "t0")] "t1").filter
        (fun p => p.payload.isData) =
      [publish_data "/dev/ttyUSB0" "A" "t0"] := by
  rw [claim_C1_line_decoding cfgExample "/dev/ttyUSB0" [([0x41, 0xff, 0x0a], "t0")] "t1"
    (by intro lt hlt; rw [List.mem_singleton] at hlt; subst hlt; decide)]
  decide

/-- **C7.**  The claim says `stop()` is idempotent and never raises.  On a
reader that never connected (no task, no writer) and on one whose task is
already done it is indeed safe and idempotent, and closing is skipped when
already closing.  But on a reader with a live read task, `task.cancel()`
followed by `await self.task` raises `asyncio.CancelledError`, which
`contextlib.suppress(Exception)` does not swallow (since Python 3.8
`CancelledError` derives from `BaseException`): `stop()` raises and never
reaches the writer close, so the connection is not released either. -/
theorem claim_C7_stop_raises_on_live_task :
    readerStopRun ⟨some false, some false⟩ = .error PyExc.cancelled ∧
    readerStopRun ⟨none, none⟩ = .ok ⟨none, none⟩ ∧
    readerStopRun ⟨some true, some false⟩ = .ok ⟨some true, some true⟩ ∧
    readerStopRun ⟨some true, some true⟩ = .ok ⟨some true, some true⟩ := by
  exact ⟨rfl, rfl, rfl, rfl⟩

theorem pubWellFormed_status (cfg : Settings) (dev st : String) (er : Option String)
    (ts : String) : pubWellFormed cfg dev (publish_status dev st er ts) = true := by
  simp [pubWellFormed, publish_status]

theorem pubWellFormed_data (cfg : Settings) (dev s ts : String) :
    pubWellFormed cfg dev (publish_data dev s ts) = true := by
  simp [pubWellFormed, publish_data]

theorem pubWellFormed_disc (cfg : Settings) (dev : String) :
    pubWellFormed cfg dev (ensure_discovery cfg.discoveryPfx dev) = true := by
  simp [pubWellFormed, ensure_discovery]

theorem read_loop_pubWellFormed (cfg : Settings) (dev : String)
    (lines : List (List Nat × String)) (tsEof : String) :
    (read_loop cfg dev lines tsEof).all (pubWellFormed cfg dev) = true := by
  induction lines with
  | nil => simp [read_loop, pubWellFormed_status]
  | cons lt rest ih =>
    obtain ⟨line, ts⟩ := lt
    by_cases hl : line.isEmpty
    · simp [read_loop, hl, pubWellFormed_status]
    · cases hdisc : cfg.enableDiscovery <;>
        simp [read_loop, hl, hdisc, ih, pubWellFormed_data, pubWellFormed_disc,
          pubWellFormed_status]

/-- **C8.**  Every message a reader ever publishes respects the topic,
quality-of-service and retention contract: Status messages go to
`multi_serial/<slug>/status` with `qos=1` (at-least-once) retained, Data
messages to `multi_serial/<slug>/data` with `qos=0` (at-most-once) not
retained, and discovery descriptors to
`<discovery_prefix>/sensor/<slug>/last/config` with `qos=1` retained —
where `<slug>` is the device path with the path separators `/` and `\`
replaced by underscores (`pySlug`). -/
theorem claim_C8_topic_qos_retain (cfg : Settings) (dev : String)
    (openRes : Except String Unit) (lines : List (List Nat × String)) (ts0 tsEof : String) :
    (readerTrace cfg dev openRes lines ts0 tsEof).all (pubWellFormed cfg dev) = true := by
  cases openRes with
  | error e => simp [readerTrace, pubWellFormed_status]
  | ok u => simp [readerTrace, pubWellFormed_status, read_loop_pubWellFormed]

theorem read_loop_disc_eq (cfg : Settings) (dev : String)
    (lines : List (List Nat × String)) (tsEof : String) (p : Pub)
    (hp : p ∈ read_loop cfg dev lines tsEof) (hd : p.payload.isDisc = true) :
    p = ensure_discovery cfg.discoveryPfx dev := by
  induction lines with
  | nil =>
    simp [read_loop] at hp
    subst hp
    simp [publish_status, Payload.isDisc] at hd
  | cons lt rest ih =>
    obtain ⟨line, ts⟩ := lt
    by_cases hl : line.isEmpty
    · simp [read_loop, hl] at hp
      subst hp
      simp [publish_status, Payload.isDisc] at hd
    · cases hdisc : cfg.enableDiscovery
      · simp [read_loop, hl, hdisc] at hp
        rcases hp with h1 | h2
        · subst h1; simp [publish_data, Payload.isDisc] at hd
        · exact ih h2
      · simp [read_loop, hl, hdisc] at hp
        rcases hp with h1 | h2 | h3
        · subst h1; simp [publish_data, Payload.isDisc] at hd
        · exact h2
        · exact ih h3

theorem readerTrace_disc_eq (cfg : Settings) (dev : String) (openRes : Except String Unit)
    (lines : List (List Nat × String)) (ts0 tsEof : String) (p : Pub)
    (hp : p ∈ readerTrace cfg dev openRes lines ts0 tsEof) (hd : p.payload.isDisc = true) :
    p = ensure_discovery cfg.discoveryPfx dev := by
  cases openRes with
  | error e =>
    simp [readerTrace] at hp
    subst hp
    simp [publish_status, Payload.isDisc] at hd
  | ok u =>
    simp [readerTrace] at hp
    rcases hp with h1 | h2
    · subst h1; simp [publish_status, Payload.isDisc] at hd
    · exact read_loop_disc_eq cfg dev lines tsEof p h2 hd

/-- **C9.**  Discovery-descriptor determinism and content: any two
discovery publications of the same device under the same settings —
regardless of the stream contents, timestamps or open outcomes of the two
reader lives — are identical; and the descriptor carries a human-readable
name containing the device path, the unique id `multi_serial_<slug>`
deterministically derived from the path with separators replaced, the
device's data topic as state source, the device's status topic as
availability source with a template selecting the status `state` field,
and a value template selecting the data message's `data` field. -/
theorem claim_C9_discovery_deterministic (cfg : Settings) (dev : String)
    (o1 o2 : Except String Unit) (l1 l2 : List (List Nat × String))
    (a1 b1 a2 b2 : String) (p1 p2 : Pub)
    (h1 : p1 ∈ readerTrace cfg dev o1 l1 a1 b1)
    (h2 : p2 ∈ readerTrace cfg dev o2 l2 a2 b2)
    (d1 : p1.payload.isDisc = true) (d2 : p2.payload.isDisc = true) :
    p1 = p2 ∧
    p1 = ensure_discovery cfg.discoveryPfx dev ∧
    (ensure_discovery cfg.discoveryPfx dev).payload =
      Payload.disc ("Serial " ++ dev ++ " Last")
        ("multi_serial_" ++ pySlug dev)
        ("multi_serial/" ++ pySlug dev ++ "/data")
        "\x7b\x7b value_json.data \x7d\x7d"
        ("multi_serial/" ++ pySlug dev ++ "/status")
        ("multi_serial/" ++ pySlug dev ++ "/status")
        "\x7b\x7b value_json.state \x7d\x7d" ∧
    (∀ s ts, (publish_data dev s ts).topic = "multi_serial/" ++ pySlug dev ++ "/data") ∧
    (∀ st er ts,
      (publish_status dev st er ts).topic = "multi_serial/" ++ pySlug dev ++ "/status") := by
  have e1 := readerTrace_disc_eq cfg dev o1 l1 a1 b1 p1 h1 d1
  have e2 := readerTrace_disc_eq cfg dev o2 l2 a2 b2 p2 h2 d2
  exact ⟨e1.trans e2.symm, e1, rfl, fun s ts => rfl, fun st er ts => rfl⟩

/-- Witness for C9: two reader lives of `/dev/ttyUSB0` under the default
settings — different stream contents and timestamps — publish the same
descriptor. -/
theorem claim_C9_witness :
    ensure_discovery cfgExample.discoveryPfx "/dev/ttyUSB0" =
      ensure_discovery cfgExample.discoveryPfx "/dev/ttyUSB0" ∧
    ensure_discovery cfgExample.discoveryPfx "/dev/ttyUSB0" =
      ensure_discovery cfgExample.discoveryPfx "/dev/ttyUSB0" ∧
    (ensure_discovery cfgExample.discoveryPfx "/dev/ttyUSB0").payload =
      Payload.disc ("Serial " ++ "/dev/ttyUSB0" ++ " Last")
        ("multi_serial_" ++ pySlug "/dev/ttyUSB0")
        ("multi_serial/" ++ pySlug "/dev/ttyUSB0" ++ "/data")
        "\x7b\x7b value_json.data \x7d\x7d"
        ("multi_serial/" ++ pySlug "/dev/ttyUSB0" ++ "/status")
        ("multi_serial/" ++ pySlug "/dev/ttyUSB0" ++ "/status")
        "\x7b\x7b value_json.state \x7d\x7d" ∧
    (∀ s ts,
      (publish_data "/dev/ttyUSB0" s ts).topic =
        "multi_serial/" ++ pySlug "/dev/ttyUSB0" ++ "/data") ∧
    (∀ st er ts,
      (publish_status "/dev/ttyUSB0" st er ts).topic =
        "multi_serial/" ++ pySlug "/dev/ttyUSB0" ++ "/status") :=
  claim_C9_discovery_deterministic cfgExample "/dev/ttyUSB0"
    (.ok ()) (.ok ()) [([0x41, 0x0a], "ta")] [([0x42, 0x0a], "tb"), ([0xff], "tc")]
    "t0" "t1" "t2" "t3"
    (ensure_discovery cfgExample.discoveryPfx "/dev/ttyUSB0")
    (ensure_discovery cfgExample.discoveryPfx "/dev/ttyUSB0")
    (by decide) (by decide) (by decide) (by decide)

end MultiSerial
